import Mathlib

/-!
A verification development for the `gbiff_explorer` application.

The definitions below are a shallow embedding of the Python sources:

* `fetch_batch` models `GBIFService._fetch_batch` (src/gbif_service.py):
  a bounded retry loop over single-page HTTP requests, where the outcome of
  each attempt (success / timeout / other transport failure) is supplied by
  an oracle `attempts : Nat → AttemptResult`.  Besides the Python return
  value (data, raised exception, or `None` when the `for` loop falls
  through) the model records the list of `time.sleep` delays performed.
* `search_by_person` models `GBIFService.search_by_person`: the offset
  pagination loop.  The remote endpoint is an oracle from offsets to batch
  outcomes.  Since the Python `while True` loop need not terminate for an
  arbitrary remote, the model is fuel-indexed and returns `none` when the
  fuel runs out.  The result carries the observable trace of the run: the
  offsets requested, the accumulated records and the progress-callback
  invocations.
* `parse_occurrence` models `GBIFService.parse_occurrence` over a Python
  dictionary modelled as an association list of `PyVal` values; it returns
  `none` exactly when the Python code would raise a `TypeError` in
  `','.join(...)`.
* `searchRoute` models the `/search` route of src/app.py, including the
  empty-query guard, the persistence loop with its duplicate check
  (`persistOccurrence`), and the error path.
* `resultsFilter` and `exportFilter` model the filter pipelines of the
  `/results/<id>` and `/export/<id>` routes of src/app.py over rows of the
  `occurrences` table (src/models.py).
-/

/-- Outcome of one page response of the remote GBIF API, modelling the JSON
body `{count: ..., results: [...]}`; `count` is `none` when the key is
absent (the code reads it with `data.get('count', 0)`). -/
structure PageResponse (α : Type) where
  results : List α
  count : Option Nat
deriving DecidableEq, Repr

/-- Outcome of a single HTTP attempt inside `_fetch_batch`: the request
succeeds with a decoded body, raises `requests.exceptions.Timeout`, or
raises some other `requests.exceptions.RequestException` whose `str` is
`msg`. -/
inductive AttemptResult (α : Type) where
  | success (data : α)
  | timeout
  | transport (msg : String)
deriving DecidableEq, Repr

/-- Result of a call to `_fetch_batch` as seen by its caller: a returned
value, a raised exception carrying a message, or the Python `None` returned
when the retry `for` loop completes without returning (only reachable when
`max_retries = 0`). -/
inductive BatchResult (α : Type) where
  | ok (data : α)
  | raise (msg : String)
  | retNone
deriving DecidableEq, Repr

/-- Message of the exception raised on retry exhaustion when the last
attempt timed out: `f"Request timed out after {self.max_retries} attempts"`. -/
def timeoutMsg (maxRetries : Nat) : String :=
  "Request timed out after " ++ toString maxRetries ++ " attempts"

/-- Message of the exception raised on retry exhaustion when the last
attempt failed with a non-timeout transport error `e`:
`f"Request failed after {self.max_retries} attempts: {str(e)}"`. -/
def transportMsg (maxRetries : Nat) (e : String) : String :=
  "Request failed after " ++ toString maxRetries ++ " attempts: " ++ e

/-- The terminal message produced by retry exhaustion, determined by the
last attempt's failure kind. -/
def terminalMsg {α : Type} (maxRetries : Nat) : AttemptResult α → String
  | .timeout => timeoutMsg maxRetries
  | .transport e => transportMsg maxRetries e
  | .success _ => ""

/-- Whether an attempt failed (either kind of `requests` exception). -/
def isFail {α : Type} : AttemptResult α → Bool
  | .success _ => false
  | .timeout => true
  | .transport _ => true

/-- Body of the `for attempt in range(max_retries)` loop of `_fetch_batch`.
`remaining` counts the iterations the `for` loop still has (initially
`maxRetries`), `attempt` is the Python loop variable, and `sleeps` collects
the `time.sleep(self.retry_delay)` calls performed so far.  A failure on an
attempt other than the last sleeps and continues; a failure on the last
attempt (`attempt = maxRetries - 1`) raises. -/
def fetchLoop {α : Type} (maxRetries delay : Nat) (attempts : Nat → AttemptResult α) :
    Nat → Nat → List Nat → BatchResult α × List Nat
  | 0, _, sleeps => (.retNone, sleeps)
  | _remaining + 1, attempt, sleeps =>
    match attempts attempt with
    | .success data => (.ok data, sleeps)
    | .timeout =>
      if attempt < maxRetries - 1 then
        fetchLoop maxRetries delay attempts _remaining (attempt + 1) (sleeps ++ [delay])
      else
        (.raise (timeoutMsg maxRetries), sleeps)
    | .transport e =>
      if attempt < maxRetries - 1 then
        fetchLoop maxRetries delay attempts _remaining (attempt + 1) (sleeps ++ [delay])
      else
        (.raise (transportMsg maxRetries e), sleeps)

/-- Model of `GBIFService._fetch_batch`: run the retry loop from attempt 0
with no sleeps performed yet. -/
def fetch_batch {α : Type} (maxRetries delay : Nat) (attempts : Nat → AttemptResult α) :
    BatchResult α × List Nat :=
  fetchLoop maxRetries delay attempts maxRetries 0 []

/-- Observable trace of one `search_by_person` run: the offsets of the
page requests issued, the accumulated `all_results`, and the arguments of
the successive `progress_callback(len(all_results), total_count)`
invocations. -/
structure FetchTrace (α : Type) where
  requests : List Nat
  results : List α
  progress : List (Nat × Nat)
deriving DecidableEq, Repr

/-- Body of the `while True` loop of `GBIFService.search_by_person`,
fuel-indexed (the Python loop need not terminate against an arbitrary
remote).  `none` means the fuel ran out.  A raised exception propagates as
`Except.error`, carrying the message together with the offsets requested so
far (the latter being an observable of the run, not a Python value). -/
def searchLoop {α : Type} (limit : Nat) (remote : Nat → BatchResult (PageResponse α)) :
    Nat → Nat → List α → Option Nat → List Nat → List (Nat × Nat) →
    Option (Except (String × List Nat) (FetchTrace α))
  | 0, _, _, _, _, _ => none
  | fuel + 1, offset, acc, totalCount, reqs, prog =>
    let reqs' := reqs ++ [offset]
    match remote offset with
    | .raise msg => some (.error (msg, reqs'))
    | .retNone => some (.ok ⟨reqs', acc, prog⟩)
    | .ok data =>
      let results := data.results
      let acc' := acc ++ results
      let t : Nat :=
        match totalCount with
        | none => data.count.getD 0
        | some t => t
      let prog' := prog ++ [(acc'.length, t)]
      if results.length < limit then
        some (.ok ⟨reqs', acc', prog'⟩)
      else
        searchLoop limit remote fuel (offset + limit) acc' (some t) reqs' prog'

/-- Model of `GBIFService.search_by_person`: start the pagination loop at
offset 0 with empty accumulator, `total_count = None`, and empty trace. -/
def search_by_person {α : Type} (limit : Nat) (remote : Nat → BatchResult (PageResponse α))
    (fuel : Nat) : Option (Except (String × List Nat) (FetchTrace α)) :=
  searchLoop limit remote fuel 0 [] none [] []

/-- Concatenation of the results of pages `k, k+1, ..., k+m-1`. -/
def catResults {α : Type} (pg : Nat → PageResponse α) (k m : Nat) : List α :=
  ((List.range m).map fun i => (pg (k + i)).results).flatten

/-- The `total_count` value after the iteration that fetched page `k`,
starting from state `tc`: set from the page's `count` (default 0) only if
still `None`. -/
def tcVal (tc : Option Nat) {α : Type} (pg : Nat → PageResponse α) (k : Nat) : Nat :=
  tc.getD ((pg k).count.getD 0)

/-- The remote oracle corresponding to a fixed dataset `D`: a request at
`offset` returns the records `D[offset : offset+limit]` and reports the
dataset's size as `count`. -/
def datasetRemote {α : Type} (limit : Nat) (D : List α) : Nat → BatchResult (PageResponse α) :=
  fun offset => .ok ⟨(D.drop offset).take limit, some D.length⟩

/-- Peeling the first element off a map over `List.range (m+1)`. -/
theorem range_map_succ_shift {β : Type} (f : Nat → β) (m : Nat) :
    (List.range (m + 1)).map f = f 0 :: (List.range m).map (fun i => f (i + 1)) := by
  rw [List.range_succ_eq_map]
  simp [List.map_map, Function.comp]

/-- `catResults` of `m+1` pages splits off the first page. -/
theorem catResults_succ {α : Type} (pg : Nat → PageResponse α) (k m : Nat) :
    catResults pg k (m + 1) = (pg k).results ++ catResults pg (k + 1) m := by
  unfold catResults
  rw [range_map_succ_shift]
  rw [List.flatten_cons, Nat.add_zero]
  congr 1
  apply congrArg
  apply List.map_congr_left
  intro i _
  have h : k + (i + 1) = k + 1 + i := by omega
  rw [h]

/-- One page of no results contributes nothing. -/
theorem catResults_zero {α : Type} (pg : Nat → PageResponse α) (k : Nat) :
    catResults pg k 0 = [] := rfl

/-- The in-loop update of `total_count` agrees with `tcVal`. -/
theorem tc_match_eq_tcVal {α : Type} (tc : Option Nat) (pg : Nat → PageResponse α) (k : Nat) :
    (match tc with
      | none => (pg k).count.getD 0
      | some t => t) = tcVal tc pg k := by
  cases tc <;> rfl

/-- Main characterization of the pagination loop on a successful run.
Starting at page `k` (offset `k * L`), if pages `k .. k+m-1` are fetched
successfully with at least `L` records each and page `k+m` is fetched
successfully with fewer than `L` records, the loop requests exactly pages
`k .. k+m`, accumulates their results in order, and reports progress once
per page with the running record count and the `total_count` fixed by the
state at page `k`. -/
theorem searchLoop_ok_spec {α : Type} (L : Nat) (remote : Nat → BatchResult (PageResponse α))
    (pg : Nat → PageResponse α) :
    ∀ (m k fuel : Nat) (acc : List α) (tc : Option Nat) (reqs : List Nat)
      (prog : List (Nat × Nat)),
      m < fuel →
      (∀ i, i ≤ m → remote ((k + i) * L) = .ok (pg (k + i))) →
      (∀ i, i < m → L ≤ (pg (k + i)).results.length) →
      (pg (k + m)).results.length < L →
      searchLoop L remote fuel (k * L) acc tc reqs prog =
        some (.ok ⟨reqs ++ (List.range (m + 1)).map (fun i => (k + i) * L),
                   acc ++ catResults pg k (m + 1),
                   prog ++ (List.range (m + 1)).map
                     (fun i => (acc.length + (catResults pg k (i + 1)).length,
                                tcVal tc pg k))⟩) := by
  intro m
  induction m with
  | zero =>
    intro k fuel acc tc reqs prog hfuel hok hfull hshort
    match fuel, hfuel with
    | fuel + 1, _ =>
      have h0 := hok 0 (Nat.le_refl 0)
      rw [Nat.add_zero] at h0 hshort
      simp only [searchLoop, h0, tc_match_eq_tcVal, if_pos hshort]
      have h1 : catResults pg k 1 = (pg k).results := by
        rw [catResults_succ, catResults_zero, List.append_nil]
      simp [h1, List.range_succ]
  | succ n ih =>
    intro k fuel acc tc reqs prog hfuel hok hfull hshort
    match fuel, hfuel with
    | fuel + 1, hfuel =>
      have h0 := hok 0 (Nat.zero_le _)
      rw [Nat.add_zero] at h0
      have hfull0 := hfull 0 (Nat.succ_pos n)
      rw [Nat.add_zero] at hfull0
      have hnotlt : ¬ ((pg k).results.length < L) := Nat.not_lt.mpr hfull0
      simp only [searchLoop, h0, tc_match_eq_tcVal, if_neg hnotlt]
      have hkL : k * L + L = (k + 1) * L := by ring
      rw [hkL]
      have hok' : ∀ i, i ≤ n → remote ((k + 1 + i) * L) = .ok (pg (k + 1 + i)) := by
        intro i hi
        have := hok (i + 1) (by omega)
        rwa [show k + (i + 1) = k + 1 + i by omega] at this
      have hfull' : ∀ i, i < n → L ≤ (pg (k + 1 + i)).results.length := by
        intro i hi
        have := hfull (i + 1) (by omega)
        rwa [show k + (i + 1) = k + 1 + i by omega] at this
      have hshort' : (pg (k + 1 + n)).results.length < L := by
        rwa [show k + (n + 1) = k + 1 + n by omega] at hshort
      rw [ih (k + 1) fuel (acc ++ (pg k).results) (some (tcVal tc pg k)) (reqs ++ [k * L])
          (prog ++ [((acc ++ (pg k).results).length, tcVal tc pg k)])
          (by omega) hok' hfull' hshort']
      have htc : tcVal (some (tcVal tc pg k)) pg (k + 1) = tcVal tc pg k := rfl
      rw [htc]
      have h1 : catResults pg k 1 = (pg k).results := by
        rw [catResults_succ, catResults_zero, List.append_nil]
      have ereq : (reqs ++ [k * L]) ++ (List.range (n + 1)).map (fun i => (k + 1 + i) * L)
          = reqs ++ (List.range (n + 1 + 1)).map (fun i => (k + i) * L) := by
        rw [range_map_succ_shift (fun i => (k + i) * L) (n + 1), List.append_assoc,
          List.singleton_append]
        have emap : (List.range (n + 1)).map (fun i => (k + 1 + i) * L)
            = (List.range (n + 1)).map (fun i => (k + (i + 1)) * L) :=
          List.map_congr_left (fun i _ => by rw [show k + (i + 1) = k + 1 + i by omega])
        rw [emap]
        norm_num
      have eres : (acc ++ (pg k).results) ++ catResults pg (k + 1) (n + 1)
          = acc ++ catResults pg k (n + 1 + 1) := by
        rw [catResults_succ pg k (n + 1), List.append_assoc]
      have eprog : (prog ++ [((acc ++ (pg k).results).length, tcVal tc pg k)]) ++
            (List.range (n + 1)).map
              (fun i => ((acc ++ (pg k).results).length + (catResults pg (k + 1) (i + 1)).length,
                tcVal tc pg k))
          = prog ++ (List.range (n + 1 + 1)).map
              (fun i => (acc.length + (catResults pg k (i + 1)).length, tcVal tc pg k)) := by
        rw [range_map_succ_shift
            (fun i => (acc.length + (catResults pg k (i + 1)).length, tcVal tc pg k)) (n + 1),
          List.append_assoc, List.singleton_append]
        have emap : (List.range (n + 1)).map
              (fun i => ((acc ++ (pg k).results).length + (catResults pg (k + 1) (i + 1)).length,
                tcVal tc pg k))
            = (List.range (n + 1)).map
              (fun i => (acc.length + (catResults pg k (i + 1 + 1)).length, tcVal tc pg k)) :=
          List.map_congr_left (fun i _ => by
            rw [catResults_succ pg k (i + 1), List.length_append, List.length_append]
            rw [Nat.add_assoc])
        rw [emap]
        norm_num [h1]
      rw [ereq, eres, eprog]

/-- Characterization of the pagination loop when a page's fetch raises.
Starting at page `k`, if pages `k .. k+m-1` are fetched successfully with
at least `L` records each and fetching page `k+m` raises `msg`, the loop
requests exactly pages `k .. k+m` and propagates the exception: the result
is an error carrying no records. -/
theorem searchLoop_err_spec {α : Type} (L : Nat) (remote : Nat → BatchResult (PageResponse α))
    (pg : Nat → PageResponse α) :
    ∀ (m k fuel : Nat) (acc : List α) (tc : Option Nat) (reqs : List Nat)
      (prog : List (Nat × Nat)) (msg : String),
      m < fuel →
      (∀ i, i < m → remote ((k + i) * L) = .ok (pg (k + i))) →
      (∀ i, i < m → L ≤ (pg (k + i)).results.length) →
      remote ((k + m) * L) = .raise msg →
      searchLoop L remote fuel (k * L) acc tc reqs prog =
        some (.error (msg, reqs ++ (List.range (m + 1)).map (fun i => (k + i) * L))) := by
  intro m
  induction m with
  | zero =>
    intro k fuel acc tc reqs prog msg hfuel hok hfull hraise
    match fuel, hfuel with
    | fuel + 1, _ =>
      rw [Nat.add_zero] at hraise
      simp [searchLoop, hraise, List.range_succ]
  | succ n ih =>
    intro k fuel acc tc reqs prog msg hfuel hok hfull hraise
    match fuel, hfuel with
    | fuel + 1, hfuel =>
      have h0 := hok 0 (Nat.succ_pos n)
      rw [Nat.add_zero] at h0
      have hfull0 := hfull 0 (Nat.succ_pos n)
      rw [Nat.add_zero] at hfull0
      have hnotlt : ¬ ((pg k).results.length < L) := Nat.not_lt.mpr hfull0
      simp only [searchLoop, h0, tc_match_eq_tcVal, if_neg hnotlt]
      have hkL : k * L + L = (k + 1) * L := by ring
      rw [hkL]
      have hok' : ∀ i, i < n → remote ((k + 1 + i) * L) = .ok (pg (k + 1 + i)) := by
        intro i hi
        have := hok (i + 1) (by omega)
        rwa [show k + (i + 1) = k + 1 + i by omega] at this
      have hfull' : ∀ i, i < n → L ≤ (pg (k + 1 + i)).results.length := by
        intro i hi
        have := hfull (i + 1) (by omega)
        rwa [show k + (i + 1) = k + 1 + i by omega] at this
      have hraise' : remote ((k + 1 + n) * L) = .raise msg := by
        rwa [show k + (n + 1) = k + 1 + n by omega] at hraise
      rw [ih (k + 1) fuel (acc ++ (pg k).results) (some (tcVal tc pg k)) (reqs ++ [k * L])
          (prog ++ [((acc ++ (pg k).results).length, tcVal tc pg k)]) msg
          (by omega) hok' hfull' hraise']
      have ereq : (reqs ++ [k * L]) ++ (List.range (n + 1)).map (fun i => (k + 1 + i) * L)
          = reqs ++ (List.range (n + 1 + 1)).map (fun i => (k + i) * L) := by
        rw [range_map_succ_shift (fun i => (k + i) * L) (n + 1), List.append_assoc,
          List.singleton_append]
        have emap : (List.range (n + 1)).map (fun i => (k + 1 + i) * L)
            = (List.range (n + 1)).map (fun i => (k + (i + 1)) * L) :=
          List.map_congr_left (fun i _ => by rw [show k + (i + 1) = k + 1 + i by omega])
        rw [emap]
        norm_num
      rw [ereq]

/-- `catResults` of `m+1` pages splits off the last page. -/
theorem catResults_snoc {α : Type} (pg : Nat → PageResponse α) (k m : Nat) :
    catResults pg k (m + 1) = catResults pg k m ++ (pg (k + m)).results := by
  unfold catResults
  rw [List.range_succ, List.map_append, List.flatten_append]
  simp

/-- The page of index `i` that `datasetRemote` serves: records
`D[i*L : i*L+L]` together with the full dataset size. -/
def datasetPg {α : Type} (limit : Nat) (D : List α) : Nat → PageResponse α :=
  fun i => ⟨(D.drop (i * limit)).take limit, some D.length⟩

/-- Consecutive dataset pages reassemble the dataset tail. -/
theorem datasetPg_chunks {α : Type} (L : Nat) (D : List α) :
    ∀ (m k : Nat), D.length ≤ (k + m) * L →
      catResults (datasetPg L D) k m = D.drop (k * L) := by
  intro m
  induction m with
  | zero =>
    intro k h
    rw [catResults_zero]
    symm
    apply List.drop_eq_nil_of_le
    simpa using h
  | succ n ih =>
    intro k h
    rw [catResults_succ]
    have h' : D.length ≤ (k + 1 + n) * L := by
      have e : (k + 1 + n) * L = (k + (n + 1)) * L := by ring
      rw [e]
      exact h
    rw [ih (k + 1) h']
    show (D.drop (k * L)).take L ++ D.drop ((k + 1) * L) = D.drop (k * L)
    have e2 : D.drop ((k + 1) * L) = (D.drop (k * L)).drop L := by
      rw [List.drop_drop]
      congr 1
      ring
    rw [e2, List.take_append_drop]

/-- Number of pages fetched: `N / L + 1` equals the ceiling `⌈N/L⌉` when `L`
does not divide `N`, and `⌈N/L⌉ + 1` when it does. -/
theorem requests_count_eq_ceil (N L : Nat) (hL : 0 < L) :
    N / L + 1 = if N % L = 0 then (N + L - 1) / L + 1 else (N + L - 1) / L := by
  have hq := Nat.div_add_mod N L
  have hr := Nat.mod_lt N hL
  by_cases h : N % L = 0
  · rw [if_pos h]
    have e : N + L - 1 = (L - 1) + (N / L) * L := by
      have h2 : N / L * L = L * (N / L) := by ring
      omega
    rw [e, Nat.add_mul_div_right _ _ hL, Nat.div_eq_of_lt (show L - 1 < L by omega)]
    omega
  · rw [if_neg h]
    have hr0 : 0 < N % L := Nat.pos_of_ne_zero h
    have e : N + L - 1 = (N % L - 1) + (N / L + 1) * L := by
      have h1 : (N / L + 1) * L = N / L * L + L := by ring
      have h2 : N / L * L = L * (N / L) := by ring
      omega
    rw [e, Nat.add_mul_div_right _ _ hL, Nat.div_eq_of_lt (show N % L - 1 < L by omega)]
    omega

/-- C1: against a remote dataset of `N` records served with page size `L`,
`search_by_person` issues exactly `N / L + 1` page requests — which is
`⌈N/L⌉` when `L` does not divide `N` and `⌈N/L⌉ + 1` when it does — at
offsets `0, L, 2L, ...`, and returns exactly the `N` records in page
order. -/
theorem C1_fetch_all (α : Type) (L : Nat) (D : List α) (fuel : Nat)
    (hL : 0 < L) (hfuel : D.length / L < fuel) :
    ∃ prog, search_by_person L (datasetRemote L D) fuel =
        some (.ok ⟨(List.range (D.length / L + 1)).map (fun i => i * L), D, prog⟩) ∧
      ((List.range (D.length / L + 1)).map (fun i => i * L)).length =
        (if D.length % L = 0 then (D.length + L - 1) / L + 1 else (D.length + L - 1) / L) := by
  have hq := Nat.div_add_mod D.length L
  have hr := Nat.mod_lt D.length hL
  have hc : D.length / L * L = L * (D.length / L) := by ring
  have hok : ∀ i, i ≤ D.length / L →
      datasetRemote L D ((0 + i) * L) = .ok (datasetPg L D (0 + i)) := fun i _ => rfl
  have hfull : ∀ i, i < D.length / L → L ≤ (datasetPg L D (0 + i)).results.length := by
    intro i hi
    show L ≤ ((D.drop ((0 + i) * L)).take L).length
    rw [List.length_take, List.length_drop]
    have h1 : (i + 1) * L ≤ D.length / L * L := Nat.mul_le_mul_right L (by omega)
    have h2 : (i + 1) * L = i * L + L := by ring
    have h0 : (0 + i) * L = i * L := by ring
    rw [h0]
    omega
  have hshort : (datasetPg L D (0 + D.length / L)).results.length < L := by
    show ((D.drop ((0 + D.length / L) * L)).take L).length < L
    rw [List.length_take, List.length_drop]
    have h0 : (0 + D.length / L) * L = D.length / L * L := by ring
    rw [h0]
    omega
  have hspec := searchLoop_ok_spec L (datasetRemote L D) (datasetPg L D) (D.length / L) 0 fuel
      [] none [] [] hfuel hok hfull hshort
  rw [Nat.zero_mul] at hspec
  have echunk : catResults (datasetPg L D) 0 (D.length / L + 1) = D := by
    have hch := datasetPg_chunks L D (D.length / L + 1) 0 (by
      have h1 : (0 + (D.length / L + 1)) * L = L * (D.length / L) + L := by ring
      omega)
    rw [Nat.zero_mul, List.drop_zero] at hch
    exact hch
  have emap : (List.range (D.length / L + 1)).map (fun i => (0 + i) * L)
      = (List.range (D.length / L + 1)).map (fun i => i * L) :=
    List.map_congr_left (fun i _ => by rw [Nat.zero_add])
  simp only [List.nil_append] at hspec
  rw [emap, echunk] at hspec
  refine ⟨_, hspec, ?_⟩
  rw [List.length_map, List.length_range]
  exact requests_count_eq_ceil D.length L hL

/-- Witness for C1 at page size 2, dataset `[10, 20, 30]`, fuel 2. -/
theorem C1_fetch_all_witness :
    (0 < 2 ∧ ([10, 20, 30] : List Nat).length / 2 < 2) ∧
    (∃ prog, search_by_person 2 (datasetRemote 2 ([10, 20, 30] : List Nat)) 2 =
        some (.ok ⟨(List.range (([10, 20, 30] : List Nat).length / 2 + 1)).map (fun i => i * 2),
          [10, 20, 30], prog⟩) ∧
      ((List.range (([10, 20, 30] : List Nat).length / 2 + 1)).map (fun i => i * 2)).length =
        (if ([10, 20, 30] : List Nat).length % 2 = 0
          then (([10, 20, 30] : List Nat).length + 2 - 1) / 2 + 1
          else (([10, 20, 30] : List Nat).length + 2 - 1) / 2)) :=
  ⟨⟨by decide, by decide⟩, C1_fetch_all Nat 2 [10, 20, 30] 2 (by decide) (by decide)⟩

/-- C2: for any sequence of page responses in which page `j` is the first
one containing fewer than `limit` records (possibly zero), the fetch loop
terminates right after requesting page `j`: it issues exactly the `j + 1`
requests at offsets `0, L, ..., j*L` and no further ones, whatever
`count` values the responses report. -/
theorem C2_short_page_stops {α : Type} (L fuel j : Nat)
    (remote : Nat → BatchResult (PageResponse α)) (pg : Nat → PageResponse α)
    (hfuel : j < fuel)
    (hok : ∀ i, i ≤ j → remote (i * L) = .ok (pg i))
    (hfull : ∀ i, i < j → L ≤ (pg i).results.length)
    (hshort : (pg j).results.length < L) :
    ∃ res prog, search_by_person L remote fuel =
      some (.ok ⟨(List.range (j + 1)).map (fun i => i * L), res, prog⟩) := by
  have hspec := searchLoop_ok_spec L remote pg j 0 fuel [] none [] [] hfuel
      (fun i hi => by rw [Nat.zero_add]; exact hok i hi)
      (fun i hi => by rw [Nat.zero_add]; exact hfull i hi)
      (by rw [Nat.zero_add]; exact hshort)
  rw [Nat.zero_mul] at hspec
  have emap : (List.range (j + 1)).map (fun i => (0 + i) * L)
      = (List.range (j + 1)).map (fun i => i * L) :=
    List.map_congr_left (fun i _ => by rw [Nat.zero_add])
  simp only [List.nil_append] at hspec
  rw [emap] at hspec
  exact ⟨_, _, hspec⟩

/-- Witness for C2: three pages of sizes 2, 2, 1 with page size 2 and
deliberately misleading reported counts. -/
theorem C2_short_page_stops_witness :
    ∃ res prog,
      search_by_person 2
        (fun offset =>
          if offset = 0 then .ok ⟨[10, 11], some 999⟩
          else if offset = 2 then .ok ⟨[12, 13], some 999⟩
          else .ok ⟨[14], some 999⟩) 5 =
      some (.ok ⟨(List.range (2 + 1)).map (fun i => i * 2), res, prog⟩) := by
  refine C2_short_page_stops 2 5 2 _
      (fun i => if i = 0 then ⟨[10, 11], some 999⟩
        else if i = 1 then ⟨[12, 13], some 999⟩ else ⟨[14], some 999⟩)
      (by omega) ?_ ?_ ?_
  · intro i hi
    interval_cases i <;> rfl
  · intro i hi
    interval_cases i <;> simp
  · simp

/-- C6: on a successful fetch, the progress callback is invoked exactly
once per successful page (as many invocations as requests), each invocation
reports the cumulative number of records fetched so far paired with the
`count` of the first page's response, the reported total is that first
count on every invocation, and the fetched-so-far components are
non-decreasing across invocations. -/
theorem C6_progress_notifications {α : Type} (L fuel j c : Nat)
    (remote : Nat → BatchResult (PageResponse α)) (pg : Nat → PageResponse α)
    (hfuel : j < fuel)
    (hok : ∀ i, i ≤ j → remote (i * L) = .ok (pg i))
    (hfull : ∀ i, i < j → L ≤ (pg i).results.length)
    (hshort : (pg j).results.length < L)
    (hc : (pg 0).count = some c) :
    ∃ t : FetchTrace α, search_by_person L remote fuel = some (.ok t) ∧
      t.progress = (List.range (j + 1)).map (fun i => ((catResults pg 0 (i + 1)).length, c)) ∧
      t.progress.length = t.requests.length ∧
      (∀ q ∈ t.progress, q.2 = c) ∧
      List.Chain' (fun a b : Nat × Nat => a.1 ≤ b.1) t.progress := by
  have hspec := searchLoop_ok_spec L remote pg j 0 fuel [] none [] [] hfuel
      (fun i hi => by rw [Nat.zero_add]; exact hok i hi)
      (fun i hi => by rw [Nat.zero_add]; exact hfull i hi)
      (by rw [Nat.zero_add]; exact hshort)
  rw [Nat.zero_mul] at hspec
  have htc : tcVal none pg 0 = c := by simp [tcVal, hc]
  simp only [List.nil_append, List.length_nil, Nat.zero_add, htc] at hspec
  refine ⟨_, hspec, rfl, ?_, ?_, ?_⟩
  · simp
  · intro q hq
    simp only [List.mem_map] at hq
    obtain ⟨i, _, hi⟩ := hq
    rw [← hi]
  · rw [List.chain'_map, List.chain'_range_succ]
    intro m _
    show (catResults pg 0 (m + 1)).length ≤ (catResults pg 0 (m + 1 + 1)).length
    rw [catResults_snoc pg 0 (m + 1), List.length_append]
    omega

/-- Witness for C6: three pages of sizes 2, 2, 1 with page size 2 and
first-page count 999. -/
theorem C6_progress_notifications_witness :
    ∃ t : FetchTrace Nat,
      search_by_person 2
        (fun offset =>
          if offset = 0 then .ok ⟨[10, 11], some 999⟩
          else if offset = 2 then .ok ⟨[12, 13], some 999⟩
          else .ok ⟨[14], some 5⟩) 5 =
        some (.ok t) ∧
      t.progress = (List.range (2 + 1)).map
        (fun i => ((catResults
          (fun i => if i = 0 then ⟨[10, 11], some 999⟩
            else if i = 1 then ⟨[12, 13], some 999⟩ else ⟨[14], some 5⟩) 0 (i + 1)).length,
          999)) ∧
      t.progress.length = t.requests.length ∧
      (∀ q ∈ t.progress, q.2 = 999) ∧
      List.Chain' (fun a b : Nat × Nat => a.1 ≤ b.1) t.progress := by
  refine C6_progress_notifications 2 5 2 999 _
      (fun i => if i = 0 then ⟨[10, 11], some 999⟩
        else if i = 1 then ⟨[12, 13], some 999⟩ else ⟨[14], some 5⟩)
      (by omega) ?_ ?_ ?_ ?_
  · intro i hi
    interval_cases i <;> rfl
  · intro i hi
    interval_cases i <;> simp
  · simp
  · simp

/-- If attempts `j .. j+n-1` fail and attempt `j+n` succeeds (all within
the retry budget), the retry loop started at attempt `j` returns the
success value after exactly `n` sleeps of the fixed delay. -/
theorem fetchLoop_succeeds {α : Type} (maxR delay : Nat) (attempts : Nat → AttemptResult α) :
    ∀ (n j : Nat) (sleeps : List Nat) (d : α),
      j + n < maxR →
      (∀ i, j ≤ i → i < j + n → isFail (attempts i) = true) →
      attempts (j + n) = .success d →
      fetchLoop maxR delay attempts (maxR - j) j sleeps =
        (.ok d, sleeps ++ List.replicate n delay) := by
  intro n
  induction n with
  | zero =>
    intro j sleeps d hlt hfails hsucc
    rw [Nat.add_zero] at hlt hsucc
    rw [show maxR - j = (maxR - j - 1) + 1 by omega]
    simp only [fetchLoop, hsucc, List.replicate_zero, List.append_nil]
  | succ n ih =>
    intro j sleeps d hlt hfails hsucc
    have hfj : isFail (attempts j) = true := hfails j (Nat.le_refl j) (by omega)
    have hjlt : j < maxR - 1 := by omega
    rw [show maxR - j = (maxR - j - 1) + 1 by omega]
    have hrec : maxR - j - 1 = maxR - (j + 1) := by omega
    have happ : sleeps ++ [delay] ++ List.replicate n delay
        = sleeps ++ List.replicate (n + 1) delay := by
      rw [List.append_assoc, List.singleton_append, List.replicate_succ]
    cases hA : attempts j with
    | success d' => rw [hA] at hfj; simp [isFail] at hfj
    | timeout =>
      simp only [fetchLoop, hA, if_pos hjlt]
      rw [hrec]
      rw [ih (j + 1) (sleeps ++ [delay]) d (by omega)
        (fun i h1 h2 => hfails i (by omega) (by omega))
        (by rw [show j + 1 + n = j + (n + 1) by omega]; exact hsucc)]
      rw [happ]
    | transport e =>
      simp only [fetchLoop, hA, if_pos hjlt]
      rw [hrec]
      rw [ih (j + 1) (sleeps ++ [delay]) d (by omega)
        (fun i h1 h2 => hfails i (by omega) (by omega))
        (by rw [show j + 1 + n = j + (n + 1) by omega]; exact hsucc)]
      rw [happ]

/-- If every attempt from `j` up to the last one fails, the retry loop
started at attempt `j` raises the terminal message determined by the last
attempt's failure kind, after sleeping once per non-final failed attempt. -/
theorem fetchLoop_exhausts {α : Type} (maxR delay : Nat) (attempts : Nat → AttemptResult α) :
    ∀ (n j : Nat) (sleeps : List Nat),
      j + n + 1 = maxR →
      (∀ i, j ≤ i → i < maxR → isFail (attempts i) = true) →
      fetchLoop maxR delay attempts (maxR - j) j sleeps =
        (.raise (terminalMsg maxR (attempts (maxR - 1))), sleeps ++ List.replicate n delay) := by
  intro n
  induction n with
  | zero =>
    intro j sleeps hj hfails
    have hfj : isFail (attempts j) = true := hfails j (Nat.le_refl j) (by omega)
    rw [show maxR - j = 0 + 1 by omega]
    have hlast : maxR - 1 = j := by omega
    cases hA : attempts j with
    | success d' => rw [hA] at hfj; simp [isFail] at hfj
    | timeout =>
      simp only [fetchLoop, hA, if_neg (show ¬ j < maxR - 1 by omega)]
      rw [hlast, hA]
      simp [terminalMsg]
    | transport e =>
      simp only [fetchLoop, hA, if_neg (show ¬ j < maxR - 1 by omega)]
      rw [hlast, hA]
      simp [terminalMsg]
  | succ n ih =>
    intro j sleeps hj hfails
    have hfj : isFail (attempts j) = true := hfails j (Nat.le_refl j) (by omega)
    have hjlt : j < maxR - 1 := by omega
    rw [show maxR - j = (maxR - j - 1) + 1 by omega]
    have hrec : maxR - j - 1 = maxR - (j + 1) := by omega
    have happ : sleeps ++ [delay] ++ List.replicate n delay
        = sleeps ++ List.replicate (n + 1) delay := by
      rw [List.append_assoc, List.singleton_append, List.replicate_succ]
    cases hA : attempts j with
    | success d' => rw [hA] at hfj; simp [isFail] at hfj
    | timeout =>
      simp only [fetchLoop, hA, if_pos hjlt]
      rw [hrec]
      rw [ih (j + 1) (sleeps ++ [delay]) (by omega) (fun i h1 h2 => hfails i (by omega) h2)]
      rw [happ]
    | transport e =>
      simp only [fetchLoop, hA, if_pos hjlt]
      rw [hrec]
      rw [ih (j + 1) (sleeps ++ [delay]) (by omega) (fun i h1 h2 => hfails i (by omega) h2)]
      rw [happ]

/-- C3: (i) a page whose first `k < max_retries` attempts fail transiently
and whose attempt `k` succeeds returns its data, having waited the fixed
delay between consecutive attempts (`k` sleeps); (ii) a page all of whose
`max_retries` attempts fail raises a terminal error whose message is
determined by the last attempt — the timed-out message or the transport
message carrying the underlying cause, each embedding the attempt count —
after `max_retries - 1` fixed-delay sleeps; (iii) a page that succeeds
after fewer than `max_retries` transient failures contributes its records
to the aggregate returned by `search_by_person`. -/
theorem C3_retry_policy {α : Type} (maxR delay : Nat) (attempts : Nat → AttemptResult α) :
    (∀ (k : Nat) (d : α), k < maxR → (∀ i, i < k → isFail (attempts i) = true) →
        attempts k = .success d →
        fetch_batch maxR delay attempts = (.ok d, List.replicate k delay)) ∧
    (0 < maxR → (∀ i, i < maxR → isFail (attempts i) = true) →
        fetch_batch maxR delay attempts =
          (.raise (terminalMsg maxR (attempts (maxR - 1))), List.replicate (maxR - 1) delay)) ∧
    (∀ (β : Type) (L fuel j : Nat) (attemptsAt : Nat → Nat → AttemptResult (PageResponse β))
        (pg : Nat → PageResponse β),
      j < fuel →
      (∀ i, i ≤ j → ∃ k, k < maxR ∧ (∀ a, a < k → isFail (attemptsAt (i * L) a) = true) ∧
          attemptsAt (i * L) k = .success (pg i)) →
      (∀ i, i < j → L ≤ (pg i).results.length) →
      (pg j).results.length < L →
      ∃ t : FetchTrace β,
        search_by_person L (fun offset => (fetch_batch maxR delay (attemptsAt offset)).1) fuel =
          some (.ok t) ∧
        t.results = catResults pg 0 (j + 1)) := by
  refine ⟨?_, ?_, ?_⟩
  · intro k d hk hfails hsucc
    have h := fetchLoop_succeeds maxR delay attempts k 0 [] d (by omega)
      (fun i h1 h2 => hfails i (by omega)) (by simpa using hsucc)
    simp only [Nat.sub_zero, List.nil_append] at h
    rw [fetch_batch, h]
  · intro hpos hfails
    have h := fetchLoop_exhausts maxR delay attempts (maxR - 1) 0 [] (by omega)
      (fun i h1 h2 => hfails i h2)
    simp only [Nat.sub_zero, List.nil_append] at h
    rw [fetch_batch, h]
  · intro β L fuel j attemptsAt pg hfuel hsucc hfull hshort
    have hok : ∀ i, i ≤ j →
        (fetch_batch maxR delay (attemptsAt (i * L))).1 = BatchResult.ok (pg i) := by
      intro i hi
      obtain ⟨k, hk, hfails, hs⟩ := hsucc i hi
      have h := fetchLoop_succeeds maxR delay (attemptsAt (i * L)) k 0 [] (pg i) (by omega)
        (fun a h1 h2 => hfails a (by omega)) (by simpa using hs)
      simp only [Nat.sub_zero, List.nil_append] at h
      rw [fetch_batch, h]
    have hspec := searchLoop_ok_spec L
        (fun offset => (fetch_batch maxR delay (attemptsAt offset)).1) pg j 0 fuel
        [] none [] [] hfuel
        (fun i hi => by rw [Nat.zero_add]; exact hok i hi)
        (fun i hi => by rw [Nat.zero_add]; exact hfull i hi)
        (by rw [Nat.zero_add]; exact hshort)
    rw [Nat.zero_mul] at hspec
    simp only [List.nil_append] at hspec
    exact ⟨_, hspec, rfl⟩

/-- Witness for C3 at `max_retries = 3`, `delay = 2`: one timeout then a
success; three transport failures then a timeout exhaustion; a one-page
aggregated fetch. -/
theorem C3_retry_policy_witness :
    (fetch_batch 3 2 (fun i => if i = 0 then AttemptResult.timeout else .success 42)
      = (.ok 42, List.replicate 1 2)) ∧
    (fetch_batch 3 2
        (fun i : Nat => if i < 2 then AttemptResult.transport "boom"
          else (.timeout : AttemptResult Nat))
      = (.raise (terminalMsg 3
          ((fun i : Nat => if i < 2 then AttemptResult.transport "boom"
            else (.timeout : AttemptResult Nat)) (3 - 1))), List.replicate (3 - 1) 2)) ∧
    (∃ t : FetchTrace Nat,
      search_by_person 2
        (fun offset =>
          (fetch_batch 3 2 ((fun _ _ => AttemptResult.success
            (⟨[7], some 1⟩ : PageResponse Nat)) offset)).1) 1 =
        some (.ok t) ∧
      t.results = catResults (fun _ => (⟨[7], some 1⟩ : PageResponse Nat)) 0 (0 + 1)) := by
  refine ⟨?_, ?_, ?_⟩
  · exact (C3_retry_policy 3 2
      (fun i => if i = 0 then AttemptResult.timeout else .success 42)).1 1 42
      (by omega) (by decide) rfl
  · exact ((C3_retry_policy 3 2
      (fun i : Nat => if i < 2 then AttemptResult.transport "boom"
        else (.timeout : AttemptResult Nat))).2).1 (by omega) (by decide)
  · exact (((C3_retry_policy 3 2
      (fun _ => (AttemptResult.timeout : AttemptResult Nat))).2).2) Nat 2 1 0
      (fun _ _ => AttemptResult.success (⟨[7], some 1⟩ : PageResponse Nat))
      (fun _ => (⟨[7], some 1⟩ : PageResponse Nat))
      (by omega)
      (fun i _ => ⟨0, by omega, fun a ha => absurd ha (by omega), rfl⟩)
      (fun i hi => absurd hi (by omega))
      (by simp)

/-- C4: if pages `0 .. j-1` are fetched successfully (each after fewer than
`max_retries` transient failures) and every one of page `j`'s `max_retries`
attempts fails, `search_by_person` propagates the terminal failure to its
caller: the run ends in the raised error (after the `j + 1` requests), and
in particular does not return the partial aggregate accumulated from the
earlier successful pages. -/
theorem C4_no_partial_aggregate {α : Type} (L maxR delay fuel j : Nat)
    (attemptsAt : Nat → Nat → AttemptResult (PageResponse α)) (pg : Nat → PageResponse α)
    (hfuel : j < fuel) (hpos : 0 < maxR)
    (hsucc : ∀ i, i < j → ∃ k, k < maxR ∧
        (∀ a, a < k → isFail (attemptsAt (i * L) a) = true) ∧
        attemptsAt (i * L) k = .success (pg i))
    (hfull : ∀ i, i < j → L ≤ (pg i).results.length)
    (hfails : ∀ a, a < maxR → isFail (attemptsAt (j * L) a) = true) :
    search_by_person L (fun offset => (fetch_batch maxR delay (attemptsAt offset)).1) fuel =
      some (.error (terminalMsg maxR (attemptsAt (j * L) (maxR - 1)),
        (List.range (j + 1)).map (fun i => i * L))) ∧
    ∀ t : FetchTrace α,
      search_by_person L (fun offset => (fetch_batch maxR delay (attemptsAt offset)).1) fuel ≠
        some (.ok t) := by
  have hok : ∀ i, i < j →
      (fetch_batch maxR delay (attemptsAt (i * L))).1 = BatchResult.ok (pg i) := by
    intro i hi
    obtain ⟨k, hk, hf, hs⟩ := hsucc i hi
    have h := fetchLoop_succeeds maxR delay (attemptsAt (i * L)) k 0 [] (pg i) (by omega)
      (fun a h1 h2 => hf a (by omega)) (by simpa using hs)
    simp only [Nat.sub_zero, List.nil_append] at h
    rw [fetch_batch, h]
  have hraise : (fetch_batch maxR delay (attemptsAt (j * L))).1 =
      BatchResult.raise (terminalMsg maxR (attemptsAt (j * L) (maxR - 1))) := by
    have h := fetchLoop_exhausts maxR delay (attemptsAt (j * L)) (maxR - 1) 0 [] (by omega)
      (fun a h1 h2 => hfails a h2)
    simp only [Nat.sub_zero, List.nil_append] at h
    rw [fetch_batch, h]
  have hspec := searchLoop_err_spec L
      (fun offset => (fetch_batch maxR delay (attemptsAt offset)).1) pg j 0 fuel
      [] none [] [] (terminalMsg maxR (attemptsAt (j * L) (maxR - 1))) hfuel
      (fun i hi => by rw [Nat.zero_add]; exact hok i hi)
      (fun i hi => by rw [Nat.zero_add]; exact hfull i hi)
      (by rw [Nat.zero_add]; exact hraise)
  rw [Nat.zero_mul] at hspec
  have emap : (List.range (j + 1)).map (fun i => (0 + i) * L)
      = (List.range (j + 1)).map (fun i => i * L) :=
    List.map_congr_left (fun i _ => by rw [Nat.zero_add])
  simp only [List.nil_append] at hspec
  rw [emap] at hspec
  refine ⟨hspec, ?_⟩
  intro t h
  rw [search_by_person, hspec] at h
  simp at h

/-- Witness for C4: first page succeeds with 2 records, every attempt of
the second page times out with `max_retries = 1`. -/
theorem C4_no_partial_aggregate_witness :
    (search_by_person 2
      (fun offset =>
        (fetch_batch 1 0
          ((fun ofs _a => if ofs = 0 then AttemptResult.success
            (⟨[1, 2], some 4⟩ : PageResponse Nat) else .timeout) offset)).1) 2 =
      some (.error (terminalMsg 1
        ((fun ofs _a => if ofs = 0 then AttemptResult.success
          (⟨[1, 2], some 4⟩ : PageResponse Nat) else .timeout) (1 * 2) (1 - 1)),
        (List.range (1 + 1)).map (fun i => i * 2)))) ∧
    ∀ t : FetchTrace Nat,
      search_by_person 2
        (fun offset =>
          (fetch_batch 1 0
            ((fun ofs _a => if ofs = 0 then AttemptResult.success
              (⟨[1, 2], some 4⟩ : PageResponse Nat) else .timeout) offset)).1) 2 ≠
        some (.ok t) := by
  refine C4_no_partial_aggregate 2 1 0 2 1
      (fun ofs _a => if ofs = 0 then AttemptResult.success
        (⟨[1, 2], some 4⟩ : PageResponse Nat) else .timeout)
      (fun i => if i = 0 then ⟨[1, 2], some 4⟩ else ⟨[], none⟩)
      (by omega) (by omega) ?_ ?_ ?_
  · intro i hi
    interval_cases i
    exact ⟨0, by omega, fun a ha => absurd ha (by omega), rfl⟩
  · intro i hi
    interval_cases i
    simp
  · intro a ha
    interval_cases a
    rfl

/-- A JSON/Python value as it occurs in a GBIF occurrence record: a
string, an integer, or a list of strings (the `issues` array). -/
inductive PyVal where
  | str (s : String)
  | int (n : Int)
  | list (xs : List String)
deriving DecidableEq, Repr

/-- Python truthiness of such a value: the empty string, zero and the
empty list are falsy, everything else is truthy. -/
def PyVal.truthy : PyVal → Bool
  | .str s => s != ""
  | .int n => n != 0
  | .list xs => xs != []

/-- Python `str()` of such a value. -/
def PyVal.pyStr : PyVal → String
  | .str s => s
  | .int n => toString n
  | .list xs => "[" ++ String.intercalate ", " (xs.map fun s => "'" ++ s ++ "'") ++ "]"

/-- A decoded GBIF occurrence record: a Python dict modelled as an
association list from field names to values. -/
abbrev RawRec : Type := List (String × PyVal)

/-- `record.get(key)` (default `None`), as used by `safe_get` in
`parse_occurrence`. -/
def rget (r : RawRec) (k : String) : Option PyVal :=
  (r.find? (fun kv => kv.1 == k)).map (·.2)

/-- `','.join(safe_get(record, 'issues', []))`: joins a list of strings;
an absent key joins the default empty list into `""`; a string value is
iterated character by character; an integer raises `TypeError`, modelled
as `none`. -/
def pyJoinComma : Option PyVal → Option String
  | none => some ""
  | some (.list xs) => some (String.intercalate "," xs)
  | some (.str s) => some (String.intercalate "," (s.toList.map Char.toString))
  | some (.int _) => none

/-- The flat dictionary returned by `GBIFService.parse_occurrence`, field
for field (src/gbif_service.py lines 128-177). -/
structure ParsedOcc where
  gbif_id : Option String
  occurrence_key : Option PyVal
  recorded_by : Option PyVal
  identified_by : Option PyVal
  associated_persons : Option PyVal
  scientific_name : Option PyVal
  kingdom : Option PyVal
  phylum : Option PyVal
  class_name : Option PyVal
  order : Option PyVal
  family : Option PyVal
  genus : Option PyVal
  species : Option PyVal
  taxon_rank : Option PyVal
  country : Option PyVal
  country_code : Option PyVal
  state_province : Option PyVal
  locality : Option PyVal
  decimal_latitude : Option PyVal
  decimal_longitude : Option PyVal
  coordinate_uncertainty : Option PyVal
  elevation : Option PyVal
  event_date : Option PyVal
  year : Option PyVal
  month : Option PyVal
  day : Option PyVal
  basis_of_record : Option PyVal
  identification_verification_status : Option PyVal
  coordinate_precision : Option PyVal
  issues : String
  institution_code : Option PyVal
  collection_code : Option PyVal
  catalog_number : Option PyVal
  gbif_url : Option String
deriving DecidableEq, Repr

/-- Prefix of the occurrence page URL built by `parse_occurrence`. -/
def gbifUrlPrefix : String := "https://www.gbif.org/occurrence/"

/-- Model of `GBIFService.parse_occurrence`: extracts each field with
`safe_get`, builds `gbif_id`/`gbif_url` from the truthiness of `key`, and
joins the `issues` list with commas.  Returns `none` exactly when the
Python code would raise a `TypeError` in the join. -/
def parse_occurrence (record : RawRec) : Option ParsedOcc :=
  (pyJoinComma (rget record "issues")).map fun issuesStr =>
    { gbif_id :=
        match rget record "key" with
        | some v => if v.truthy then some v.pyStr else none
        | none => none
      occurrence_key := rget record "occurrenceID"
      recorded_by := rget record "recordedBy"
      identified_by := rget record "identifiedBy"
      associated_persons := none
      scientific_name := rget record "scientificName"
      kingdom := rget record "kingdom"
      phylum := rget record "phylum"
      class_name := rget record "class"
      order := rget record "order"
      family := rget record "family"
      genus := rget record "genus"
      species := rget record "species"
      taxon_rank := rget record "taxonRank"
      country := rget record "country"
      country_code := rget record "countryCode"
      state_province := rget record "stateProvince"
      locality := rget record "locality"
      decimal_latitude := rget record "decimalLatitude"
      decimal_longitude := rget record "decimalLongitude"
      coordinate_uncertainty := rget record "coordinateUncertaintyInMeters"
      elevation := rget record "elevation"
      event_date := rget record "eventDate"
      year := rget record "year"
      month := rget record "month"
      day := rget record "day"
      basis_of_record := rget record "basisOfRecord"
      identification_verification_status := rget record "identificationVerificationStatus"
      coordinate_precision := rget record "coordinatePrecision"
      issues := issuesStr
      institution_code := rget record "institutionCode"
      collection_code := rget record "collectionCode"
      catalog_number := rget record "catalogNumber"
      gbif_url :=
        match rget record "key" with
        | some v => if v.truthy then some (gbifUrlPrefix ++ v.pyStr) else none
        | none => none }

/-- Whitespace characters stripped by Python `str.strip()`. -/
def isPySpace (c : Char) : Bool :=
  c = ' ' || c = '\t' || c = '\n' || c = '\r' || c = '\x0b' || c = '\x0c'

/-- Python `str.strip()`: remove leading and trailing whitespace. -/
def pyStrip (s : String) : String :=
  ⟨((s.toList.dropWhile isPySpace).reverse.dropWhile isPySpace).reverse⟩

/-- A row of the `searches` table as the `/search` route leaves it
(src/models.py `Search`; `created_at` and the autoincrement id are
omitted as no claim mentions them). -/
structure SearchRec where
  person_name : String
  status : String
  error_message : Option String
  result_count : Nat
deriving DecidableEq, Repr

/-- A row of the `occurrences` table as written by the `/search` route:
`Occurrence(search_id=..., **parsed_occ)` stores the parsed dictionary
under the owning search's id. -/
structure StoredOcc where
  search_id : Nat
  data : ParsedOcc
deriving DecidableEq, Repr

/-- The duplicate-checked insert of the `/search` route (src/app.py lines
68-78): skip the record if some stored occurrence already has its
`gbif_id` (over the whole table), otherwise append it. -/
def persistOccurrence (store : List StoredOcc) (sid : Nat) (p : ParsedOcc) : List StoredOcc :=
  if store.any (fun e => e.data.gbif_id == p.gbif_id) then store
  else store ++ [⟨sid, p⟩]

/-- The parse-and-save loop of the `/search` route over the fetched raw
records.  A `TypeError` raised by `parse_occurrence` aborts the loop; its
message becomes the route's error, and occurrences added before the abort
remain in the session (they are flushed by the commit in the error
path). -/
def persistAll (sid : Nat) : List StoredOcc → List RawRec → List StoredOcc × Option String
  | store, [] => (store, none)
  | store, r :: rs =>
    match parse_occurrence r with
    | none => (store, some "can only join an iterable")
    | some p => persistAll sid (persistOccurrence store sid p) rs

/-- Observable outcome of one call of the `/search` route: flashed
messages with their categories, the redirect target, and the final
`searches` and `occurrences` tables, plus the number of page requests
issued against the remote API. -/
structure RouteOutcome where
  flashes : List (String × String)
  redirect : String
  searches : List SearchRec
  store : List StoredOcc
  requestsIssued : Nat
deriving DecidableEq, Repr

/-- Model of the `/search` route (src/app.py `search`): strip the
submitted `person_name`; reject an empty result before touching the
database or the network; otherwise create the search row, fetch all
occurrences, persist them with the duplicate check, and flash
success — or run the error path if the fetch (or the parse loop)
raises. -/
def searchRoute (limit maxRetries delay fuel : Nat)
    (attemptsAt : Nat → Nat → AttemptResult (PageResponse RawRec))
    (searches0 : List SearchRec) (store0 : List StoredOcc)
    (form : Option String) : Option RouteOutcome :=
  let person_name := pyStrip (form.getD "")
  if person_name = "" then
    some ⟨[("Please enter a person name", "error")], "index", searches0, store0, 0⟩
  else
    let sid := searches0.length
    match search_by_person limit
        (fun offset => (fetch_batch maxRetries delay (attemptsAt offset)).1) fuel with
    | none => none
    | some (.error (msg, reqs)) =>
      some ⟨[("Error downloading data: " ++ msg, "error")], "index",
        searches0 ++ [⟨person_name, "error", some msg, 0⟩], store0, reqs.length⟩
    | some (.ok t) =>
      match persistAll sid store0 t.results with
      | (store1, none) =>
        some ⟨[("Successfully downloaded " ++ toString t.results.length ++
            " occurrences for \"" ++ person_name ++ "\"", "success")], "results",
          searches0 ++ [⟨person_name, "completed", none, t.results.length⟩],
          store1, t.requests.length⟩
      | (store1, some msg) =>
        some ⟨[("Error downloading data: " ++ msg, "error")], "index",
          searches0 ++ [⟨person_name, "error", some msg, 0⟩], store1, t.requests.length⟩

/-- C5: a submitted query whose stripped text is empty is rejected before
anything else happens: the route flashes the rejection, redirects to the
index page, issues zero page requests, and leaves both the `searches` and
the `occurrences` tables unchanged. -/
theorem C5_empty_query_rejected (limit maxRetries delay fuel : Nat)
    (attemptsAt : Nat → Nat → AttemptResult (PageResponse RawRec))
    (searches0 : List SearchRec) (store0 : List StoredOcc) (form : Option String)
    (h : pyStrip (form.getD "") = "") :
    searchRoute limit maxRetries delay fuel attemptsAt searches0 store0 form =
      some ⟨[("Please enter a person name", "error")], "index", searches0, store0, 0⟩ := by
  rw [searchRoute]
  simp [h]

/-- Witness for C5: a form value of pure whitespace. -/
theorem C5_empty_query_rejected_witness :
    pyStrip ((some "  \t ").getD "") = "" ∧
    searchRoute 1 1 0 1 (fun _ _ => AttemptResult.timeout) [] [] (some "  \t ") =
      some ⟨[("Please enter a person name", "error")], "index", [], [], 0⟩ :=
  ⟨by decide, C5_empty_query_rejected 1 1 0 1 (fun _ _ => AttemptResult.timeout) [] []
    (some "  \t ") (by decide)⟩

/-- C7: persistence is idempotent on the gbif identifier: (i) inserting a
record whose identifier already exists in the store leaves the store
unchanged; (ii) inserting a record and then any record with the same
identifier equals inserting just the first; (iii) inserting the same
identifier twice into a store without it leaves exactly one stored record
with that identifier. -/
theorem C7_persist_idempotent (store : List StoredOcc) :
    (∀ (sid : Nat) (p : ParsedOcc), (∃ e ∈ store, e.data.gbif_id = p.gbif_id) →
        persistOccurrence store sid p = store) ∧
    (∀ (sid sid' : Nat) (p q : ParsedOcc), q.gbif_id = p.gbif_id →
        persistOccurrence (persistOccurrence store sid p) sid' q =
          persistOccurrence store sid p) ∧
    (∀ (sid sid' : Nat) (p q : ParsedOcc), q.gbif_id = p.gbif_id →
        (∀ e ∈ store, e.data.gbif_id ≠ p.gbif_id) →
        ((persistOccurrence (persistOccurrence store sid p) sid' q).filter
          (fun e => e.data.gbif_id == p.gbif_id)).length = 1) := by
  refine ⟨?_, ?_, ?_⟩
  · intro sid p hex
    obtain ⟨e, he, heq⟩ := hex
    have hany : store.any (fun e => e.data.gbif_id == p.gbif_id) = true :=
      List.any_eq_true.mpr ⟨e, he, by simp [heq]⟩
    rw [persistOccurrence, if_pos hany]
  · intro sid sid' p q hq
    by_cases hany : store.any (fun e => e.data.gbif_id == p.gbif_id) = true
    · have hp : persistOccurrence store sid p = store := by
        rw [persistOccurrence, if_pos hany]
      rw [hp, persistOccurrence, hq, if_pos hany]
    · have hp : persistOccurrence store sid p = store ++ [(⟨sid, p⟩ : StoredOcc)] := by
        rw [persistOccurrence, if_neg hany]
      have hany' : (store ++ [(⟨sid, p⟩ : StoredOcc)]).any
          (fun e => e.data.gbif_id == q.gbif_id) = true := by
        rw [List.any_append]
        simp [hq]
      rw [hp, persistOccurrence, if_pos hany']
  · intro sid sid' p q hq hnone
    have hany : ¬ store.any (fun e => e.data.gbif_id == p.gbif_id) = true := by
      rw [List.any_eq_true]
      rintro ⟨e, he, heq⟩
      exact hnone e he (by simpa using heq)
    have hp : persistOccurrence store sid p = store ++ [(⟨sid, p⟩ : StoredOcc)] := by
      rw [persistOccurrence, if_neg hany]
    have hany' : (store ++ [(⟨sid, p⟩ : StoredOcc)]).any
        (fun e => e.data.gbif_id == q.gbif_id) = true := by
      rw [List.any_append]
      simp [hq]
    rw [hp, persistOccurrence, if_pos hany']
    rw [List.filter_append]
    have hfilter : store.filter (fun e => e.data.gbif_id == p.gbif_id) = [] := by
      rw [List.filter_eq_nil_iff]
      intro e he
      simpa using hnone e he
    rw [hfilter]
    simp

/-- A concrete parsed occurrence with gbif identifier `"42"`. -/
def occA : ParsedOcc where
  gbif_id := some "42"
  occurrence_key := none
  recorded_by := some (.str "Jane Doe")
  identified_by := none
  associated_persons := none
  scientific_name := none
  kingdom := none
  phylum := none
  class_name := none
  order := none
  family := none
  genus := none
  species := none
  taxon_rank := none
  country := none
  country_code := none
  state_province := none
  locality := none
  decimal_latitude := none
  decimal_longitude := none
  coordinate_uncertainty := none
  elevation := none
  event_date := none
  year := none
  month := none
  day := none
  basis_of_record := none
  identification_verification_status := none
  coordinate_precision := none
  issues := ""
  institution_code := none
  collection_code := none
  catalog_number := none
  gbif_url := some "https://www.gbif.org/occurrence/42"

/-- Witness for C7 at the concrete record `occA`. -/
theorem C7_persist_idempotent_witness :
    ((∃ e ∈ ([⟨5, occA⟩] : List StoredOcc), e.data.gbif_id = occA.gbif_id) ∧
      persistOccurrence [⟨5, occA⟩] 6 occA = [⟨5, occA⟩]) ∧
    (occA.gbif_id = occA.gbif_id ∧
      persistOccurrence (persistOccurrence [] 5 occA) 6 occA = persistOccurrence [] 5 occA) ∧
    ((∀ e ∈ ([] : List StoredOcc), e.data.gbif_id ≠ occA.gbif_id) ∧
      ((persistOccurrence (persistOccurrence [] 5 occA) 6 occA).filter
        (fun e => e.data.gbif_id == occA.gbif_id)).length = 1) :=
  ⟨⟨⟨⟨5, occA⟩, by simp, rfl⟩,
      (C7_persist_idempotent [⟨5, occA⟩]).1 6 occA ⟨⟨5, occA⟩, by simp, rfl⟩⟩,
    ⟨rfl, (C7_persist_idempotent []).2.1 5 6 occA occA rfl⟩,
    ⟨by simp, (C7_persist_idempotent []).2.2 5 6 occA occA rfl (by simp)⟩⟩

/-- A row of the `occurrences` table restricted to the columns the
`/results` and `/export` filters touch (src/models.py `Occurrence`); the
float-typed coordinate columns are modelled with rationals, as the filters
only test them for `NULL`-ness. -/
structure OccRow where
  recorded_by : Option String
  identified_by : Option String
  country : Option String
  family : Option String
  year : Option Int
  decimal_latitude : Option Rat
  decimal_longitude : Option Rat
deriving DecidableEq, Repr

/-- The filter query parameters of the `/results` and `/export` routes:
the string parameters default to `""`; `year_min`/`year_max` are read with
`type=int`, so an absent or unparsable value is `None`. -/
structure FilterParams where
  recorded_by : String
  identified_by : String
  country : String
  year_min : Option Int
  year_max : Option Int
  family : String
  has_coordinates : String
deriving DecidableEq, Repr

/-- Lowercase a string character by character (the case folding of the
`ilike` model). -/
def strLower (s : String) : String :=
  ⟨s.toList.map Char.toLower⟩

/-- Whether the first list occurs as a contiguous run inside the second. -/
def listInfixOf (needle : List Char) : List Char → Bool
  | [] => needle.isEmpty
  | c :: rest => needle.isPrefixOf (c :: rest) || listInfixOf needle rest

/-- SQL `column ILIKE '%pat%'`: case-insensitive substring match; a `NULL`
column never matches. -/
def ilike (col : Option String) (pat : String) : Bool :=
  match col with
  | none => false
  | some s => listInfixOf (strLower pat).toList (strLower s).toList

/-- SQL `column >= bound` on a nullable integer column: `NULL` rows do not
satisfy the comparison. -/
def colGE (col : Option Int) (bound : Int) : Bool :=
  match col with
  | some y => decide (bound ≤ y)
  | none => false

/-- SQL `column <= bound` on a nullable integer column. -/
def colLE (col : Option Int) (bound : Int) : Bool :=
  match col with
  | some y => decide (y ≤ bound)
  | none => false

/-- Python truthiness of the parsed `year_min`/`year_max` parameter:
`None` and `0` are falsy, so those filters are skipped. -/
def truthyIntOpt : Option Int → Bool
  | none => false
  | some n => n != 0

/-- The filter pipeline of the `/results` route (src/app.py lines
114-138), applied to the session's occurrences in insertion order (display
pagination is applied afterwards and is not part of this pipeline). -/
def resultsFilter (p : FilterParams) (rows : List OccRow) : List OccRow :=
  let q := rows
  let q := if p.recorded_by != "" then q.filter (fun o => ilike o.recorded_by p.recorded_by)
    else q
  let q := if p.identified_by != "" then q.filter (fun o => ilike o.identified_by p.identified_by)
    else q
  let q := if p.country != "" then q.filter (fun o => ilike o.country p.country) else q
  let q := if truthyIntOpt p.year_min then q.filter (fun o => colGE o.year (p.year_min.getD 0))
    else q
  let q := if truthyIntOpt p.year_max then q.filter (fun o => colLE o.year (p.year_max.getD 0))
    else q
  let q := if p.family != "" then q.filter (fun o => ilike o.family p.family) else q
  if p.has_coordinates == "yes" then
    q.filter (fun o => o.decimal_latitude.isSome && o.decimal_longitude.isSome)
  else if p.has_coordinates == "no" then
    q.filter (fun o => o.decimal_latitude.isNone || o.decimal_longitude.isNone)
  else q

/-- The filter pipeline of the `/export` route (src/app.py lines 205-223):
identical to `resultsFilter` except that it has no branch for
`has_coordinates == 'no'`. -/
def exportFilter (p : FilterParams) (rows : List OccRow) : List OccRow :=
  let q := rows
  let q := if p.recorded_by != "" then q.filter (fun o => ilike o.recorded_by p.recorded_by)
    else q
  let q := if p.identified_by != "" then q.filter (fun o => ilike o.identified_by p.identified_by)
    else q
  let q := if p.country != "" then q.filter (fun o => ilike o.country p.country) else q
  let q := if truthyIntOpt p.year_min then q.filter (fun o => colGE o.year (p.year_min.getD 0))
    else q
  let q := if truthyIntOpt p.year_max then q.filter (fun o => colLE o.year (p.year_max.getD 0))
    else q
  let q := if p.family != "" then q.filter (fun o => ilike o.family p.family) else q
  if p.has_coordinates == "yes" then
    q.filter (fun o => o.decimal_latitude.isSome && o.decimal_longitude.isSome)
  else q

/-- C8: a filter request with `year_min = 1950`, `year_max = 1960`,
`has_coordinates = yes` (the other filters empty) selects exactly the
stored records whose year lies in the inclusive range `[1950, 1960]` and
whose latitude and longitude are both present, in stable insertion
order (the selection is a sublist of the stored sequence). -/
theorem C8_year_coordinate_filter (rows : List OccRow) :
    resultsFilter ⟨"", "", "", some 1950, some 1960, "", "yes"⟩ rows =
      rows.filter (fun o =>
        (match o.year with
          | some y => decide (1950 ≤ y ∧ y ≤ 1960)
          | none => false) &&
        (o.decimal_latitude.isSome && o.decimal_longitude.isSome)) ∧
    (resultsFilter ⟨"", "", "", some 1950, some 1960, "", "yes"⟩ rows).Sublist rows := by
  have h : resultsFilter ⟨"", "", "", some 1950, some 1960, "", "yes"⟩ rows =
      rows.filter (fun o =>
        (match o.year with
          | some y => decide (1950 ≤ y ∧ y ≤ 1960)
          | none => false) &&
        (o.decimal_latitude.isSome && o.decimal_longitude.isSome)) := by
    show ((rows.filter (fun o => colGE o.year 1950)).filter
        (fun o => colLE o.year 1960)).filter
        (fun o => o.decimal_latitude.isSome && o.decimal_longitude.isSome) = _
    rw [List.filter_filter, List.filter_filter]
    apply List.filter_congr
    intro o _
    cases hy : o.year with
    | none => simp [colGE, colLE]
    | some y =>
      by_cases h1 : (1950 : Int) ≤ y <;> by_cases h2 : y ≤ (1960 : Int) <;>
        simp [colGE, colLE, h1, h2]
  exact ⟨h, h ▸ List.filter_sublist rows⟩

/-- A stored row with no coordinates. -/
def rowNoCoord : OccRow := ⟨none, none, none, none, none, none, none⟩

/-- A stored row with both coordinates present. -/
def rowWithCoord : OccRow := ⟨none, none, none, none, none, some 1, some 2⟩

/-- Filter request asking only for records with missing coordinates. -/
def missingCoordParams : FilterParams := ⟨"", "", "", none, none, "", "no"⟩

/-- C9: with `has_coordinates = no`, the `/results` route keeps only the
records missing a coordinate, while the `/export` route — whose comment
says it applies the same filters — has no such branch and serializes every
record: on a session holding one row without and one row with coordinates,
export emits a record the results selection excludes, so the two selected
sets differ. -/
theorem C9_export_ignores_missing_coordinate_filter :
    resultsFilter missingCoordParams [rowNoCoord, rowWithCoord] = [rowNoCoord] ∧
    exportFilter missingCoordParams [rowNoCoord, rowWithCoord] = [rowNoCoord, rowWithCoord] ∧
    rowWithCoord ∈ exportFilter missingCoordParams [rowNoCoord, rowWithCoord] ∧
    rowWithCoord ∉ resultsFilter missingCoordParams [rowNoCoord, rowWithCoord] := by
  refine ⟨rfl, rfl, ?_, ?_⟩
  · show rowWithCoord ∈ [rowNoCoord, rowWithCoord]
    simp
  · show rowWithCoord ∉ [rowNoCoord]
    simp [rowWithCoord, rowNoCoord]

/-- The property claimed of `parse_occurrence` on a record: parsing
succeeds, every extracted field absent from the input maps to `None`
(`issues` to the empty string), and `gbif_id`/`gbif_url` are the string of
the input's `key` and the occurrence URL exactly when `key` is present and
truthy, both `None` otherwise. -/
def parseSpecHolds (r : RawRec) : Prop :=
  ∃ p, parse_occurrence r = some p ∧
    (rget r "occurrenceID" = none → p.occurrence_key = none) ∧
    (rget r "recordedBy" = none → p.recorded_by = none) ∧
    (rget r "identifiedBy" = none → p.identified_by = none) ∧
    (rget r "scientificName" = none → p.scientific_name = none) ∧
    (rget r "kingdom" = none → p.kingdom = none) ∧
    (rget r "phylum" = none → p.phylum = none) ∧
    (rget r "class" = none → p.class_name = none) ∧
    (rget r "order" = none → p.order = none) ∧
    (rget r "family" = none → p.family = none) ∧
    (rget r "genus" = none → p.genus = none) ∧
    (rget r "species" = none → p.species = none) ∧
    (rget r "taxonRank" = none → p.taxon_rank = none) ∧
    (rget r "country" = none → p.country = none) ∧
    (rget r "countryCode" = none → p.country_code = none) ∧
    (rget r "stateProvince" = none → p.state_province = none) ∧
    (rget r "locality" = none → p.locality = none) ∧
    (rget r "decimalLatitude" = none → p.decimal_latitude = none) ∧
    (rget r "decimalLongitude" = none → p.decimal_longitude = none) ∧
    (rget r "coordinateUncertaintyInMeters" = none → p.coordinate_uncertainty = none) ∧
    (rget r "elevation" = none → p.elevation = none) ∧
    (rget r "eventDate" = none → p.event_date = none) ∧
    (rget r "year" = none → p.year = none) ∧
    (rget r "month" = none → p.month = none) ∧
    (rget r "day" = none → p.day = none) ∧
    (rget r "basisOfRecord" = none → p.basis_of_record = none) ∧
    (rget r "identificationVerificationStatus" = none →
      p.identification_verification_status = none) ∧
    (rget r "coordinatePrecision" = none → p.coordinate_precision = none) ∧
    (rget r "institutionCode" = none → p.institution_code = none) ∧
    (rget r "collectionCode" = none → p.collection_code = none) ∧
    (rget r "catalogNumber" = none → p.catalog_number = none) ∧
    (rget r "issues" = none → p.issues = "") ∧
    (∀ v, rget r "key" = some v → v.truthy = true →
      p.gbif_id = some v.pyStr ∧ p.gbif_url = some (gbifUrlPrefix ++ v.pyStr)) ∧
    ((rget r "key" = none ∨ ∃ v, rget r "key" = some v ∧ v.truthy = false) →
      p.gbif_id = none ∧ p.gbif_url = none)

/-- C10: for every input record whose `issues` key is absent or a list of
strings, `parse_occurrence` returns a flat record satisfying
`parseSpecHolds`: absent extracted fields map to `None`, absent `issues`
to `""`, and `gbif_id`/`gbif_url` are derived from `key` exactly when it
is present and truthy. -/
theorem C10_parse_occurrence (r : RawRec)
    (h : rget r "issues" = none ∨ ∃ xs, rget r "issues" = some (.list xs)) :
    parseSpecHolds r := by
  obtain ⟨s, hs⟩ : ∃ s, pyJoinComma (rget r "issues") = some s := by
    rcases h with h | ⟨xs, h⟩
    · exact ⟨"", by rw [h]; rfl⟩
    · exact ⟨String.intercalate "," xs, by rw [h]; rfl⟩
  unfold parseSpecHolds
  rw [parse_occurrence, hs]
  exact ⟨_, rfl,
    fun h' => h', fun h' => h', fun h' => h', fun h' => h', fun h' => h',
    fun h' => h', fun h' => h', fun h' => h', fun h' => h', fun h' => h',
    fun h' => h', fun h' => h', fun h' => h', fun h' => h', fun h' => h',
    fun h' => h', fun h' => h', fun h' => h', fun h' => h', fun h' => h',
    fun h' => h', fun h' => h', fun h' => h', fun h' => h', fun h' => h',
    fun h' => h', fun h' => h', fun h' => h', fun h' => h', fun h' => h',
    fun h' => by rw [h'] at hs; exact (Option.some.inj hs).symm,
    fun v hv htr => ⟨by simp [hv, htr], by simp [hv, htr]⟩,
    fun hneg => by
      rcases hneg with h' | ⟨v, hv, hf⟩
      · exact ⟨by simp [h'], by simp [h']⟩
      · exact ⟨by simp [hv, hf], by simp [hv, hf]⟩⟩

/-- A concrete raw record: an integer `key`, a recorder, no other keys. -/
def recEx : RawRec := [("key", PyVal.int 123), ("recordedBy", PyVal.str "Doe")]

/-- Witness for C10 at the concrete record `recEx`. -/
theorem C10_parse_occurrence_witness :
    (rget recEx "issues" = none ∨ ∃ xs, rget recEx "issues" = some (.list xs)) ∧
    parseSpecHolds recEx :=
  ⟨Or.inl rfl, C10_parse_occurrence recEx (Or.inl rfl)⟩
